import Mathlib

/-!
Shallow embedding of the `ccost` usage-aggregation pipeline.

The repository is a Raycast extension that shells out to the `ccusage` CLI,
parses its JSON, windows and sorts the period records, normalizes the
per-model cost/token breakdowns and rolls them up into per-family summary
rows.  Two variants exist in the sources: a weekly one (`src/ccost.tsx`)
and a daily one (`src/unnamed/part_001`).  JavaScript numbers are modelled
as `Rat` (costs) and `Nat` (token counts); optional JSON fields as
`Option`; timestamps obtained via `new Date(s)` as `Int`.
-/

namespace Ccost

/-! ### String primitives

JavaScript's `String.prototype.includes` (case-sensitive substring test)
and `String.prototype.trim` (strip whitespace from both ends), embedded
over the character list of the string so that they compute. -/

/-- Does the second list occur as a prefix of the first argument list?
Helper for the substring test. -/
def beginsWith : List Char → List Char → Bool
  | [], _ => true
  | _ :: _, [] => false
  | a :: as, b :: bs => a = b && beginsWith as bs

/-- Does `needle` occur as a contiguous substring of the second argument? -/
def hasSubstr (needle : List Char) : List Char → Bool
  | [] => needle.isEmpty
  | c :: cs => beginsWith needle (c :: cs) || hasSubstr needle cs

/-- `strContains hay needle` embeds JavaScript `hay.includes(needle)`:
case-sensitive contiguous substring test. -/
def strContains (hay needle : String) : Bool :=
  hasSubstr needle.toList hay.toList

/-- Strip leading and trailing whitespace from a character list. -/
def trimChars (s : List Char) : List Char :=
  ((s.dropWhile Char.isWhitespace).reverse.dropWhile Char.isWhitespace).reverse

/-- `strTrim s` embeds JavaScript `s.trim()`. -/
def strTrim (s : String) : String :=
  String.mk (trimChars s.toList)

/-! ### Colors and model families -/

/-- The host-UI colors the sources use (`Color.Green`, `Color.Blue`,
`Color.Purple`, `Color.SecondaryText`). -/
inductive Color where
  | green
  | blue
  | purple
  | secondaryText
  deriving DecidableEq

/-- The four summary buckets: the fixed keyword set {opus, sonnet, haiku}
plus the fallback family. The sources' `"gray"` key (normalization) and
`"other"` key (summary) both denote the fallback. -/
inductive ModelFamily where
  | opus
  | sonnet
  | haiku
  | other
  deriving DecidableEq

/-- Classification used during normalization, `src/ccost.tsx` lines 92-98
(and identically `src/unnamed/part_001` lines 57-63): substring match on
the model name in the order sonnet, haiku, opus, else the fallback. -/
def classifyNorm (name : String) : ModelFamily :=
  if strContains name "sonnet" then ModelFamily.sonnet
  else if strContains name "haiku" then ModelFamily.haiku
  else if strContains name "opus" then ModelFamily.opus
  else ModelFamily.other

/-- Classification used during the summary roll-up, `src/ccost.tsx` lines
149-152: substring match on the model name in the order opus, sonnet,
haiku, else `"other"`. -/
def classifySummary (name : String) : ModelFamily :=
  if strContains name "opus" then ModelFamily.opus
  else if strContains name "sonnet" then ModelFamily.sonnet
  else if strContains name "haiku" then ModelFamily.haiku
  else ModelFamily.other

/-- The weekly variant's `colorMap` (lines 76-80) together with the
`?? Color.SecondaryText` fallback of line 109. -/
def familyColor : ModelFamily → Color
  | ModelFamily.sonnet => Color.blue
  | ModelFamily.haiku => Color.purple
  | ModelFamily.opus => Color.green
  | ModelFamily.other => Color.secondaryText

/-! ### Data model of the weekly variant (`src/ccost.tsx`) -/

/-- `interface ModelBreakdown` (lines 36-43): every numeric field of the
upstream JSON is optional. -/
structure ModelBreakdown where
  modelName : String
  cost : Option Rat
  inputTokens : Option Nat
  outputTokens : Option Nat
  cacheCreationTokens : Option Nat
  cacheReadTokens : Option Nat
  deriving DecidableEq

/-- `interface Model` (lines 9-16): a normalized per-model row. -/
structure Model where
  name : String
  cost : Option Rat
  color : Color
  inputTokens : Option Nat
  outputTokens : Option Nat
  totalTokens : Option Nat
  deriving DecidableEq

/-- `interface WeeklyUsage` (lines 45-52): one upstream period record. -/
structure WeeklyUsage where
  week : String
  totalCost : Option Rat
  inputTokens : Option Nat
  outputTokens : Option Nat
  totalTokens : Option Nat
  modelBreakdowns : Option (List ModelBreakdown)
  deriving DecidableEq

/-- `interface Day` (lines 18-25): one normalized period record. -/
structure Day where
  date : String
  totalCost : Option Rat
  inputTokens : Option Nat
  outputTokens : Option Nat
  totalTokens : Option Nat
  models : List Model
  deriving DecidableEq

/-- Normalization of one model breakdown, `src/ccost.tsx` lines 91-114:
the four token fields are defaulted to 0 with `?? 0`, the total is their
sum, the color comes from the keyword classification, and `cost` is passed
through as `cost: m.cost` without a default. -/
def normalizeBreakdown (m : ModelBreakdown) : Model :=
  let inputTokens := m.inputTokens.getD 0
  let outputTokens := m.outputTokens.getD 0
  let cacheCreationTokens := m.cacheCreationTokens.getD 0
  let cacheReadTokens := m.cacheReadTokens.getD 0
  let totalTokens := inputTokens + outputTokens + cacheCreationTokens + cacheReadTokens
  { name := m.modelName
    cost := m.cost
    color := familyColor (classifyNorm m.modelName)
    inputTokens := some inputTokens
    outputTokens := some outputTokens
    totalTokens := some totalTokens }

/-- Normalization of one weekly record, `src/ccost.tsx` lines 116-123:
the entry-level fields are copied verbatim and only `modelBreakdowns`
(defaulted to `[]` by `?? []`) is mapped through `normalizeBreakdown`. -/
def normalizeWeekly (d : WeeklyUsage) : Day :=
  { date := d.week
    totalCost := d.totalCost
    inputTokens := d.inputTokens
    outputTokens := d.outputTokens
    totalTokens := d.totalTokens
    models := (d.modelBreakdowns.getD []).map normalizeBreakdown }

/-! ### Summary roll-up (`src/ccost.tsx` lines 139-162) -/

/-- One aggregate summary row (`interface ModelSummary`, lines 27-34). -/
structure ModelSummary where
  name : String
  cost : Rat
  inputTokens : Nat
  outputTokens : Nat
  totalTokens : Nat
  color : Color
  deriving DecidableEq

/-- The initial accumulator buckets of `modelSummary` (lines 140-145). -/
def summaryInit : ModelFamily → ModelSummary
  | ModelFamily.opus =>
    { name := "Opus (Total)", cost := 0, inputTokens := 0, outputTokens := 0,
      totalTokens := 0, color := Color.green }
  | ModelFamily.sonnet =>
    { name := "Sonnet", cost := 0, inputTokens := 0, outputTokens := 0,
      totalTokens := 0, color := Color.blue }
  | ModelFamily.haiku =>
    { name := "Haiku", cost := 0, inputTokens := 0, outputTokens := 0,
      totalTokens := 0, color := Color.purple }
  | ModelFamily.other =>
    { name := "Other", cost := 0, inputTokens := 0, outputTokens := 0,
      totalTokens := 0, color := Color.secondaryText }

/-- The four `+=` statements of lines 154-157: add one model's figures
(missing values counted as zero by `?? 0`) into a bucket. -/
def addToSummary (s : ModelSummary) (m : Model) : ModelSummary :=
  { s with
    cost := s.cost + m.cost.getD 0
    inputTokens := s.inputTokens + m.inputTokens.getD 0
    outputTokens := s.outputTokens + m.outputTokens.getD 0
    totalTokens := s.totalTokens + m.totalTokens.getD 0 }

/-- The body of the inner loop of lines 148-158: classify the model with
the summary's own substring rule and update the matching bucket. -/
def stepSummary (acc : ModelFamily → ModelSummary) (m : Model) :
    ModelFamily → ModelSummary :=
  fun f => if classifySummary m.name = f then addToSummary (acc f) m else acc f

/-- The two nested `for` loops of lines 147-159 as folds. -/
def summaryAcc (days : List Day) : ModelFamily → ModelSummary :=
  days.foldl (fun acc d => d.models.foldl stepSummary acc) summaryInit

/-- Insertion order of the accumulator object's keys (lines 140-145):
`Object.values` enumerates them in this order on line 161. -/
def familyOrder : List ModelFamily :=
  [ModelFamily.opus, ModelFamily.sonnet, ModelFamily.haiku, ModelFamily.other]

/-- `modelSummary` (lines 139-162): accumulate every model of every day
into the four buckets, then keep the buckets with positive total tokens,
in key insertion order. -/
def modelSummary (days : List Day) : List ModelSummary :=
  (familyOrder.map (summaryAcc days)).filter (fun s => decide (0 < s.totalTokens))

/-- All model rows of a day sequence, in order. Spec-side helper for the
summary claims. -/
def allModels (days : List Day) : List Model :=
  days.flatMap (fun d => d.models)

/-- Modelled from the spec's words (sections 4.3 and 8): the bucket of a
family is the plain sum, over all model rows of all entries that classify
to that family, of each numeric field with missing values counted as
zero. Compared against the roll-up `modelSummary` in the refinement
claim. -/
def bucketSpec (days : List Day) (f : ModelFamily) : ModelSummary :=
  let ms := (allModels days).filter (fun m => decide (classifySummary m.name = f))
  { summaryInit f with
    cost := (ms.map (fun m => m.cost.getD 0)).sum
    inputTokens := (ms.map (fun m => m.inputTokens.getD 0)).sum
    outputTokens := (ms.map (fun m => m.outputTokens.getD 0)).sum
    totalTokens := (ms.map (fun m => m.totalTokens.getD 0)).sum }

/-! ### Trailing-window filter and sort

The daily variant (`src/unnamed/part_001` lines 40-47) filters records to
`new Date(d.date) >= weekAgo` with `weekAgo = now minus 6 days`, sorts by
`new Date(b.date) - new Date(a.date)` (stable sort, descending by
timestamp) and slices to the first 7.  The weekly variant
(`src/ccost.tsx` lines 82-88) does the same with a `now minus 12*7 days`
cutoff and no slice.  Timestamps produced by `new Date(...)` are
modelled as `Int`. -/

/-- One record of the daily variant's `data.daily` array: its period
timestamp, its total cost and its model breakdowns, each field optional
upstream except the date used for windowing. -/
structure DailyRec where
  date : Int
  totalCost : Option Rat
  modelBreakdowns : Option (List ModelBreakdown)
  deriving DecidableEq

/-- Filter to records whose timestamp is on or after the cutoff, then
stable-sort descending by timestamp: the shared shape of lines 44-46 of
`src/unnamed/part_001` and lines 86-88 of `src/ccost.tsx`, with `dateOf`
the record's parsed period timestamp. -/
def filterSortDesc {α : Type} (dateOf : α → Int) (cutoff : Int) (records : List α) :
    List α :=
  (records.filter (fun d => decide (cutoff ≤ dateOf d))).mergeSort
    (fun a b => decide (dateOf b ≤ dateOf a))

/-- The daily variant's cutoff: `weekAgo.setDate(now.getDate() - 6)`. -/
def dailyCutoff (now : Int) : Int := now - 6

/-- Lines 40-47 of `src/unnamed/part_001`: cutoff at now minus 6 days,
filter, sort descending, `.slice(0, 7)`. -/
def recentDaily (now : Int) (records : List DailyRec) : List DailyRec :=
  (filterSortDesc (fun d => d.date) (dailyCutoff now) records).take 7

/-! ### Fetcher (`run`, `src/ccost.tsx` lines 58-63 and
`src/unnamed/part_001` lines 21-26) -/

/-- Outcome of the fetcher: the trimmed standard output, or a thrown
error carrying a message. -/
inductive RunResult where
  | ok : String → RunResult
  | error : String → RunResult
  deriving DecidableEq

/-- The decision of lines 61-62, as a function of the captured streams:
`if (stderr && !stdout.trim()) throw new Error(stderr); return
stdout.trim();` — a non-empty string is truthy, an empty one falsy. -/
def run (stdout stderr : String) : RunResult :=
  if stderr ≠ "" ∧ strTrim stdout = "" then RunResult.error stderr
  else RunResult.ok (strTrim stdout)

/-! ### Empty-payload check (`src/ccost.tsx` line 74 and
`src/unnamed/part_001` line 38) -/

/-- `if (!data.daily?.length) throw new Error("No usage data")` (and the
same line with `weekly`): the optional chain is falsy when the array is
absent or has length 0; otherwise the records flow on. -/
def checkUsageData {α : Type} (records : Option (List α)) : Except String (List α) :=
  match records with
  | none => Except.error "No usage data"
  | some l => if l.length = 0 then Except.error "No usage data" else Except.ok l

/-! ## Theorems -/

/-- C1 (counterexample): the claim says any model name, including one
containing more than one family keyword, maps to the same family in the
normalization rule and in the summary rule.  The name
`"claude-opus-sonnet"` contains both `"opus"` and `"sonnet"`:
normalization (sonnet before opus) classifies it as sonnet, while the
summary roll-up (opus first) puts it in the opus bucket. -/
theorem classify_rules_disagree_C1 :
    classifyNorm "claude-opus-sonnet" = ModelFamily.sonnet ∧
    classifySummary "claude-opus-sonnet" = ModelFamily.opus ∧
    classifyNorm "claude-opus-sonnet" ≠ classifySummary "claude-opus-sonnet" := by
  decide

/-- C1 (amended): the two substring rules agree on every model name that
does not contain `"opus"` together with `"sonnet"` or `"haiku"` — in
particular on every name containing at most one family keyword — but
their priority orders differ (normalization: sonnet, haiku, opus;
summary: opus, sonnet, haiku), so names combining `"opus"` with another
keyword may classify differently. -/
theorem classify_rules_agree_C1 (name : String)
    (h : ¬(strContains name "opus" = true ∧
      (strContains name "sonnet" = true ∨ strContains name "haiku" = true))) :
    classifyNorm name = classifySummary name := by
  cases hs : strContains name "sonnet" <;>
    cases hh : strContains name "haiku" <;>
      cases ho : strContains name "opus" <;>
        simp_all [classifyNorm, classifySummary]

/-- C1 (witness): the amended agreement instantiated at
`"claude-3-haiku-20240307"`, whose only family keyword is `"haiku"`. -/
theorem classify_rules_agree_C1_witness :
    classifyNorm "claude-3-haiku-20240307" = classifySummary "claude-3-haiku-20240307" :=
  classify_rules_agree_C1 "claude-3-haiku-20240307" (by decide)

/-- C4 (counterexample): the claim says every missing numeric field —
including the cost — is defaulted to zero during normalization, so no
undefined numeric value survives.  But normalization copies `cost: m.cost`
verbatim: a breakdown with an absent cost normalizes to a model whose
cost is still absent, not zero. -/
theorem normalize_cost_undefined_C4 :
    (normalizeBreakdown
        ⟨"claude-3-5-sonnet-20241022", none, some 100, none, none, none⟩).cost = none ∧
    ¬(normalizeBreakdown
        ⟨"claude-3-5-sonnet-20241022", none, some 100, none, none, none⟩).cost = some 0 :=
  ⟨rfl, by decide⟩

/-- C4 (amended): during normalization every missing token-count field is
defaulted to zero, so the input, output and total token fields of the
normalized breakdown are always defined; the cost field, however, is
passed through unchanged and remains undefined when the upstream value is
absent (it is only defaulted to zero later, at each use site). -/
theorem normalize_token_defaults_C4 : ∀ m : ModelBreakdown,
    (normalizeBreakdown m).inputTokens = some (m.inputTokens.getD 0) ∧
    (normalizeBreakdown m).outputTokens = some (m.outputTokens.getD 0) ∧
    ((normalizeBreakdown m).totalTokens).isSome = true ∧
    (normalizeBreakdown m).cost = m.cost :=
  fun _ => ⟨rfl, rfl, rfl, rfl⟩

/-- C5: the fetcher's decision fails exactly when the error stream is a
non-empty string and the trimmed standard output is empty; the error
message is then the error-stream text verbatim, and in every other case
the result is the trimmed standard output. -/
theorem run_fails_iff_C5 (stdout stderr : String) :
    ((∃ msg, run stdout stderr = RunResult.error msg) ↔
      stderr ≠ "" ∧ strTrim stdout = "") ∧
    (∀ msg, run stdout stderr = RunResult.error msg → msg = stderr) ∧
    ((stderr = "" ∨ strTrim stdout ≠ "") →
      run stdout stderr = RunResult.ok (strTrim stdout)) := by
  by_cases h : stderr ≠ "" ∧ strTrim stdout = ""
  · refine ⟨⟨fun _ => h, fun _ => ⟨stderr, by simp [run, h]⟩⟩, ?_, ?_⟩
    · intro msg hmsg
      simp only [run, if_pos h, RunResult.error.injEq] at hmsg
      exact hmsg.symm
    · rintro (hc | hc)
      · exact absurd hc h.1
      · exact absurd h.2 hc
  · refine ⟨⟨?_, fun hc => absurd hc h⟩, ?_, fun _ => by simp [run, h]⟩
    · rintro ⟨msg, hmsg⟩
      rw [run, if_neg h] at hmsg
      exact RunResult.noConfusion hmsg
    · intro msg hmsg
      rw [run, if_neg h] at hmsg
      exact RunResult.noConfusion hmsg

/-- C6: every normalized breakdown's total-token count is the sum of the
input, output, cache-creation and cache-read token fields with each
addend defaulting to 0 when absent (the upstream record carries no
explicit total-token field at all); in particular the breakdown with
input 100, output 50, cache-creation 10, cache-read 5 normalizes to a
total of 165. -/
theorem normalize_totalTokens_C6 :
    (∀ m : ModelBreakdown,
      (normalizeBreakdown m).totalTokens =
        some (m.inputTokens.getD 0 + m.outputTokens.getD 0 +
          m.cacheCreationTokens.getD 0 + m.cacheReadTokens.getD 0)) ∧
    (normalizeBreakdown
        ⟨"claude-3-5-sonnet-20241022", none, some 100, some 50, some 10, some 5⟩).totalTokens =
      some 165 :=
  ⟨fun _ => rfl, by decide⟩

/-- C7: normalization classifies by case-sensitive substring match in the
priority order sonnet, haiku, opus with fallback family other;
`"claude-3-5-sonnet-20241022"` is sonnet, `"claude-3-opus-20240229"` is
opus, `"gpt-4o"` is other, and the upper-case `"SONNET"` does not match. -/
theorem classifyNorm_spec_C7 :
    (∀ n : String, strContains n "sonnet" = true →
      classifyNorm n = ModelFamily.sonnet) ∧
    (∀ n : String, strContains n "sonnet" = false → strContains n "haiku" = true →
      classifyNorm n = ModelFamily.haiku) ∧
    (∀ n : String, strContains n "sonnet" = false → strContains n "haiku" = false →
      strContains n "opus" = true → classifyNorm n = ModelFamily.opus) ∧
    (∀ n : String, strContains n "sonnet" = false → strContains n "haiku" = false →
      strContains n "opus" = false → classifyNorm n = ModelFamily.other) ∧
    classifyNorm "claude-3-5-sonnet-20241022" = ModelFamily.sonnet ∧
    classifyNorm "claude-3-opus-20240229" = ModelFamily.opus ∧
    classifyNorm "gpt-4o" = ModelFamily.other ∧
    classifyNorm "claude-3-5-SONNET-20241022" = ModelFamily.other := by
  refine ⟨?_, ?_, ?_, ?_, by decide, by decide, by decide, by decide⟩
  · intro n h
    simp [classifyNorm, h]
  · intro n h1 h2
    simp [classifyNorm, h1, h2]
  · intro n h1 h2 h3
    simp [classifyNorm, h1, h2, h3]
  · intro n h1 h2 h3
    simp [classifyNorm, h1, h2, h3]

/-- C8: the parse-boundary check fails with the message `"No usage data"`
exactly when the expected period array is absent or empty, and passes the
records through otherwise; in particular the payload whose array is
present but empty yields that error. -/
theorem checkUsageData_spec_C8 {α : Type} (records : Option (List α)) :
    (checkUsageData records = Except.error "No usage data" ↔
      records = none ∨ records = some []) ∧
    checkUsageData (some ([] : List α)) = Except.error "No usage data" ∧
    (∀ l : List α, l ≠ [] → checkUsageData (some l) = Except.ok l) := by
  refine ⟨?_, rfl, ?_⟩
  · cases records with
    | none => simp [checkUsageData]
    | some l =>
      cases l with
      | nil => simp [checkUsageData]
      | cons a as => simp [checkUsageData]
  · intro l hl
    cases l with
    | nil => exact absurd rfl hl
    | cons a as => simp [checkUsageData]

/-- C10: the weekly variant's record-level normalization copies the
period identifier and the entry-level cost and token fields through
verbatim — absent values stay absent rather than being defaulted, and no
entry-level total is recomputed — transforming only the model-breakdown
list; in particular a record with an absent entry-level total but a
non-empty breakdown list still has an absent total after normalization. -/
theorem normalizeWeekly_frame_C10 :
    (∀ d : WeeklyUsage,
      (normalizeWeekly d).date = d.week ∧
      (normalizeWeekly d).totalCost = d.totalCost ∧
      (normalizeWeekly d).inputTokens = d.inputTokens ∧
      (normalizeWeekly d).outputTokens = d.outputTokens ∧
      (normalizeWeekly d).totalTokens = d.totalTokens ∧
      (normalizeWeekly d).models =
        (d.modelBreakdowns.getD []).map normalizeBreakdown) ∧
    (normalizeWeekly
        ⟨"2025-W30", none, none, none, none,
          some [⟨"claude-opus-4", some 1, some 2, some 3, some 4, some 5⟩]⟩).totalTokens =
      none :=
  ⟨fun _ => ⟨rfl, rfl, rfl, rfl, rfl, rfl⟩, rfl⟩

/-- Transitivity of the descending-timestamp comparator. -/
theorem descBy_trans {α : Type} (dateOf : α → Int) :
    ∀ a b c : α, decide (dateOf b ≤ dateOf a) = true →
      decide (dateOf c ≤ dateOf b) = true → decide (dateOf c ≤ dateOf a) = true := by
  intro a b c hab hbc
  simp only [decide_eq_true_eq] at hab hbc ⊢
  exact le_trans hbc hab

/-- Totality of the descending-timestamp comparator. -/
theorem descBy_total {α : Type} (dateOf : α → Int) :
    ∀ a b : α, (decide (dateOf b ≤ dateOf a) || decide (dateOf a ≤ dateOf b)) = true := by
  intro a b
  simp only [Bool.or_eq_true, decide_eq_true_eq]
  exact le_total (dateOf b) (dateOf a)

/-- C9: filtering a period array to the records on or after the cutoff
and then stable-sorting them descending by timestamp is idempotent:
running the same filter and sort again on its own output returns the
identical sequence. -/
theorem filterSortDesc_idem_C9 {α : Type} (dateOf : α → Int) (cutoff : Int)
    (recs : List α) :
    filterSortDesc dateOf cutoff (filterSortDesc dateOf cutoff recs) =
      filterSortDesc dateOf cutoff recs := by
  unfold filterSortDesc
  have h1 : ((recs.filter (fun d => decide (cutoff ≤ dateOf d))).mergeSort
        (fun a b => decide (dateOf b ≤ dateOf a))).filter
        (fun d => decide (cutoff ≤ dateOf d)) =
      (recs.filter (fun d => decide (cutoff ≤ dateOf d))).mergeSort
        (fun a b => decide (dateOf b ≤ dateOf a)) :=
    List.filter_eq_self.mpr
      (fun a ha => (List.mem_filter.mp (List.mem_mergeSort.mp ha)).2)
  rw [h1]
  exact List.mergeSort_of_sorted
    (List.sorted_mergeSort (descBy_trans dateOf) (descBy_total dateOf) _)

/-- C3: for the daily granularity the window keeps at most 7 records,
every kept record's timestamp is on or after the cutoff of now minus 6
days, the kept records are in descending timestamp order, and for 10
records on consecutive days (arbitrary costs and breakdowns) exactly the
7 newest are returned, newest first, excluding the 3 oldest. -/
theorem recentDaily_window_C3 (now : Int) (r0 r1 r2 r3 r4 r5 r6 r7 r8 r9 : DailyRec)
    (h0 : r0.date = now) (h1 : r1.date = now - 1) (h2 : r2.date = now - 2)
    (h3 : r3.date = now - 3) (h4 : r4.date = now - 4) (h5 : r5.date = now - 5)
    (h6 : r6.date = now - 6) (h7 : r7.date = now - 7) (h8 : r8.date = now - 8)
    (h9 : r9.date = now - 9) :
    (∀ recs : List DailyRec,
      (recentDaily now recs).length ≤ 7 ∧
      (∀ r ∈ recentDaily now recs, now - 6 ≤ r.date) ∧
      (recentDaily now recs).Pairwise (fun a b => b.date ≤ a.date)) ∧
    recentDaily now [r0, r1, r2, r3, r4, r5, r6, r7, r8, r9] =
      [r0, r1, r2, r3, r4, r5, r6] := by
  constructor
  · intro recs
    refine ⟨?_, ?_, ?_⟩
    · simp only [recentDaily, List.length_take]
      exact min_le_left 7 _
    · intro r hr
      have hm : r ∈ recs.filter (fun d => decide (dailyCutoff now ≤ d.date)) :=
        List.mem_mergeSort.mp (List.mem_of_mem_take hr)
      have hd := (List.mem_filter.mp hm).2
      simpa [dailyCutoff] using of_decide_eq_true hd
    · have hs := List.sorted_mergeSort (descBy_trans (fun d : DailyRec => d.date))
        (descBy_total (fun d : DailyRec => d.date))
        (recs.filter (fun d => decide (dailyCutoff now ≤ d.date)))
      have ht := hs.sublist (List.take_sublist 7 _)
      exact ht.imp (fun hab => of_decide_eq_true hab)
  · have e0 : decide (dailyCutoff now ≤ r0.date) = true := by
      simp only [dailyCutoff, h0, decide_eq_true_eq]; omega
    have e1 : decide (dailyCutoff now ≤ r1.date) = true := by
      simp only [dailyCutoff, h1, decide_eq_true_eq]; omega
    have e2 : decide (dailyCutoff now ≤ r2.date) = true := by
      simp only [dailyCutoff, h2, decide_eq_true_eq]; omega
    have e3 : decide (dailyCutoff now ≤ r3.date) = true := by
      simp only [dailyCutoff, h3, decide_eq_true_eq]; omega
    have e4 : decide (dailyCutoff now ≤ r4.date) = true := by
      simp only [dailyCutoff, h4, decide_eq_true_eq]; omega
    have e5 : decide (dailyCutoff now ≤ r5.date) = true := by
      simp only [dailyCutoff, h5, decide_eq_true_eq]; omega
    have e6 : decide (dailyCutoff now ≤ r6.date) = true := by
      simp only [dailyCutoff, h6, decide_eq_true_eq]; omega
    have e7 : decide (dailyCutoff now ≤ r7.date) = false := by
      simp only [dailyCutoff, h7, decide_eq_false_iff_not]; omega
    have e8 : decide (dailyCutoff now ≤ r8.date) = false := by
      simp only [dailyCutoff, h8, decide_eq_false_iff_not]; omega
    have e9 : decide (dailyCutoff now ≤ r9.date) = false := by
      simp only [dailyCutoff, h9, decide_eq_false_iff_not]; omega
    have hfilter :
        [r0, r1, r2, r3, r4, r5, r6, r7, r8, r9].filter
          (fun d => decide (dailyCutoff now ≤ d.date)) =
        [r0, r1, r2, r3, r4, r5, r6] := by
      simp only [List.filter_cons, List.filter_nil, e0, e1, e2, e3, e4, e5, e6,
        e7, e8, e9]
      simp
    have hpair :
        [r0, r1, r2, r3, r4, r5, r6].Pairwise
          (fun a b => decide (b.date ≤ a.date) = true) := by
      simp only [List.pairwise_cons, List.forall_mem_cons, List.forall_mem_nil,
        List.not_mem_nil, decide_eq_true_eq, h0, h1, h2, h3, h4, h5, h6,
        and_true, true_and, false_implies]
      refine ⟨⟨?_, ?_, ?_, ?_, ?_, ?_, fun x => trivial⟩,
        ⟨?_, ?_, ?_, ?_, ?_, fun x => trivial⟩,
        ⟨?_, ?_, ?_, ?_, fun x => trivial⟩,
        ⟨?_, ?_, ?_, fun x => trivial⟩,
        ⟨?_, ?_, fun x => trivial⟩,
        ⟨?_, fun x => trivial⟩,
        fun x => trivial, List.Pairwise.nil⟩ <;> omega
    show (filterSortDesc (fun d => d.date) (dailyCutoff now)
        [r0, r1, r2, r3, r4, r5, r6, r7, r8, r9]).take 7 =
      [r0, r1, r2, r3, r4, r5, r6]
    rw [filterSortDesc, hfilter, List.mergeSort_of_sorted hpair]
    exact List.take_of_length_le (by simp)

/-- C3 (witness): the window at a concrete timeline — now at day 20 and
ten records on days 20 down to 11 with four distinct costs — returns
exactly the records of days 20 to 14, newest first. -/
theorem recentDaily_window_C3_witness :
    recentDaily 20
      [⟨20, some 1, none⟩, ⟨19, some 2, none⟩, ⟨18, some 3, none⟩,
       ⟨17, none, none⟩, ⟨16, some 5, none⟩, ⟨15, some 6, none⟩,
       ⟨14, some 7, none⟩, ⟨13, some 8, none⟩, ⟨12, none, none⟩,
       ⟨11, some 10, none⟩] =
    [⟨20, some 1, none⟩, ⟨19, some 2, none⟩, ⟨18, some 3, none⟩,
     ⟨17, none, none⟩, ⟨16, some 5, none⟩, ⟨15, some 6, none⟩,
     ⟨14, some 7, none⟩] :=
  (recentDaily_window_C3 20 _ _ _ _ _ _ _ _ _ _ (by decide) (by decide) (by decide)
    (by decide) (by decide) (by decide) (by decide) (by decide) (by decide)
    (by decide)).2

/-- Folding `addToSummary` over a model list adds the per-field sums to
the starting bucket and touches nothing else. -/
theorem foldl_addToSummary (ms : List Model) (s : ModelSummary) :
    ms.foldl addToSummary s =
      { name := s.name
        cost := s.cost + (ms.map (fun m => m.cost.getD 0)).sum
        inputTokens := s.inputTokens + (ms.map (fun m => m.inputTokens.getD 0)).sum
        outputTokens := s.outputTokens + (ms.map (fun m => m.outputTokens.getD 0)).sum
        totalTokens := s.totalTokens + (ms.map (fun m => m.totalTokens.getD 0)).sum
        color := s.color } := by
  induction ms generalizing s with
  | nil => cases s; simp
  | cons m ms ih =>
    simp only [List.foldl_cons, ih, addToSummary, List.map_cons, List.sum_cons,
      add_assoc]

/-- One bucket of the inner fold: the models classified to `f` are folded
in and all the others leave the bucket unchanged. -/
theorem foldl_stepSummary (ms : List Model) (acc : ModelFamily → ModelSummary)
    (f : ModelFamily) :
    (ms.foldl stepSummary acc) f =
      (ms.filter (fun m => decide (classifySummary m.name = f))).foldl
        addToSummary (acc f) := by
  induction ms generalizing acc with
  | nil => rfl
  | cons m ms ih =>
    simp only [List.foldl_cons, List.filter_cons]
    by_cases hc : classifySummary m.name = f
    · rw [ih]
      simp [stepSummary, hc]
    · rw [ih]
      simp [stepSummary, hc]

/-- One bucket of the double fold over all days. -/
theorem foldl_days_stepSummary (days : List Day) (acc : ModelFamily → ModelSummary)
    (f : ModelFamily) :
    (days.foldl (fun a d => d.models.foldl stepSummary a) acc) f =
      ((allModels days).filter (fun m => decide (classifySummary m.name = f))).foldl
        addToSummary (acc f) := by
  induction days generalizing acc with
  | nil => rfl
  | cons d days ih =>
    simp only [List.foldl_cons, allModels, List.flatMap_cons, List.filter_append,
      List.foldl_append]
    rw [ih, foldl_stepSummary]
    simp only [allModels]

/-- The imperative accumulation and the declarative per-family sums agree
bucket by bucket. -/
theorem summaryAcc_eq_bucketSpec (days : List Day) (f : ModelFamily) :
    summaryAcc days f = bucketSpec days f := by
  rw [summaryAcc, foldl_days_stepSummary, foldl_addToSummary]
  cases f <;> simp [bucketSpec, summaryInit]

/-- C2: the summary roll-up of any normalized entry sequence equals the
buckets taken in the fixed order opus, sonnet, haiku, other, each bucket
holding the sums of cost, input tokens, output tokens and total tokens
(missing values counted as zero) over all model rows of all entries that
classify to its family, filtered to the buckets whose accumulated
total-token count is strictly positive. -/
theorem modelSummary_eq_sums_C2 (days : List Day) :
    modelSummary days =
      ([ModelFamily.opus, ModelFamily.sonnet, ModelFamily.haiku,
        ModelFamily.other].map (bucketSpec days)).filter
        (fun s => decide (0 < s.totalTokens)) := by
  have h : summaryAcc days = bucketSpec days :=
    funext (summaryAcc_eq_bucketSpec days)
  rw [modelSummary, familyOrder, h]

end Ccost
